import Mathlib

/-!
Verification of the static analysis core of `mkinit/static_mkinit.py`
(package aggregator generation): submodule discovery, explicit
`__submodules__` declarations, per-submodule export-list collection
(explicit `__all__` versus derived from a reachability analysis), and the
orchestration `_static_parse_imports`.

Modelling conventions:

* Python strings are Lean `String`s; Python's `sorted` on strings compares
  code points lexicographically, embedded here as `pySort` over the
  code-point key `pyKey`.
* Python's slicing `s[n:]` is character based, embedded as `pyDrop`.
* Reading a file, resolving a module name to a path, and enumerating a
  package's children are external effects (the filesystem and the
  `xdoctest.static_analysis` helpers); they are modelled as explicit
  fields of an `Env` record.
* `static.parse_static_value(key, source)` is external; its observable
  outcomes are: a literal list value, a `NameError` (the key is not
  assigned in the source), or a `TypeError` (the key is assigned but its
  value is not a static literal).  A module's source text is represented
  by the outcomes the external helpers produce for it plus its top-level
  syntax tree.
* Fallible Python code is embedded in `Except PyError`.
-/

/-! ## Python string ordering and slicing -/

/-- The code-point key on which Python compares strings. -/
def pyKey (s : String) : List Nat := s.data.map Char.toNat

/-- Python's string order: lexicographic comparison of code points. -/
def pyLe (s t : String) : Prop := pyKey s ≤ pyKey t

instance : DecidableRel pyLe := fun s t => inferInstanceAs (Decidable (pyKey s ≤ pyKey t))

instance : IsTrans String pyLe := ⟨fun _ _ _ h1 h2 => le_trans h1 h2⟩

instance : IsTotal String pyLe := ⟨fun a b => le_total (pyKey a) (pyKey b)⟩

/-- Embeds Python's `sorted` on a list of strings (stable, keeps duplicates). -/
def pySort (l : List String) : List String := List.insertionSort pyLe l

/-- Embeds Python's character-based slicing `s[n:]`. -/
def pyDrop (n : Nat) (s : String) : String := ⟨s.data.drop n⟩

/-- Embeds Python's `s.startswith(
    "_")`: the string is nonempty and its first character is an underscore. -/
def startsWithUnderscore (s : String) : Bool :=
  match s.data with
  | [] => false
  | c :: _ => c = '_'

/-! ## Reachability analyzer

`mkinit/top_level_ast.py` (the `TopLevelVisitor` used at
`static_mkinit.py:204`) is part of this repository but is not among the
given sources.  Modelled from the spec: spec 4.1, "Reachability Analyzer",
in particular the conditional-branch policy — a branch whose condition is
statically truthy is always taken and stops the chain, a statically falsy
branch contributes nothing, an indeterminate branch contributes the
intersection of the completing alternatives, and a branch that
unconditionally raises never completes, so it is dropped from that
intersection. -/

/-- Three-valued result of static truthiness evaluation (spec 9,
"Dynamic truthiness evaluation"). -/
inductive Tri where
  | yes
  | no
  | unknown
deriving DecidableEq

/-- Conditions the analyzer can see: literal values, whose truthiness is
statically determinable, and everything else (names with non-literal
values, calls, externally influenced values), which is indeterminate. -/
inductive PExpr where
  | litBool (b : Bool)
  | litNone
  | litInt (n : Int)
  | litStr (s : String)
  | indeterminate
deriving DecidableEq

/-- Modelled from the spec: literal truthiness (spec 4.1 and 9).  `True`,
nonzero integers and nonempty strings are always true; `False`, `None`,
`0` and the empty string are always false; anything non-literal is
indeterminate. -/
def truthiness : PExpr → Tri
  | .litBool true => .yes
  | .litBool false => .no
  | .litNone => .no
  | .litInt n => if n = 0 then .no else .yes
  | .litStr s => if s = "" then .no else .yes
  | .indeterminate => .unknown

mutual

/-- A top-level Python statement, restricted to the subset the analyzer
understands (spec 4.1): name bindings (assignment, `def`, `class`,
`import`), `raise`, `pass`, and conditional chains.  Unsupported
statement kinds behave like `pass` (they never contribute bindings). -/
inductive Stmt where
  | assign (name : String)
  | funcdef (name : String)
  | classdef (name : String)
  | importName (name : String)
  | raiseStmt
  | passStmt
  | ifStmt (chain : Chain)

/-- An `if`/`elif`/.../`else` chain: a nonempty sequence of guarded
branches ending either with no `else` or with an `else` block. -/
inductive Chain where
  | cons (cond : PExpr) (body : Block) (rest : Chain)
  | noElse
  | withElse (els : Block)

/-- A block: a sequence of statements. -/
inductive Block where
  | nil
  | cons (stmt : Stmt) (rest : Block)

end

/-- Builds a `Block` from a list of statements. -/
def blockOf : List Stmt → Block
  | [] => .nil
  | s :: rest => .cons s (blockOf rest)

/-- Result of analyzing a block or branch: the set of names bound on every
execution path through it, and whether control can complete it (a block
that unconditionally raises never completes). -/
structure BlockResult where
  bound : List String
  completes : Bool
deriving DecidableEq

/-- Modelled from the spec: merging the alternatives of a conditional
chain whose guard is indeterminate (spec 4.1).  Only alternatives that
complete constrain the result — a branch that unconditionally raises is
excluded, since control never completes that path; if both sides
complete, a name is always-bound only when bound on both. -/
def combineBranches (r1 r2 : BlockResult) : BlockResult :=
  if r1.completes then
    if r2.completes then ⟨r1.bound.inter r2.bound, true⟩ else ⟨r1.bound, true⟩
  else
    if r2.completes then ⟨r2.bound, true⟩ else ⟨[], false⟩

mutual

/-- Modelled from the spec: reachability of one statement (spec 4.1).
Assignments, definitions and imports bind unconditionally; `raise` never
completes; conditionals follow `analyzeChain`. -/
def analyzeStmt : Stmt → BlockResult
  | .assign n => ⟨[n], true⟩
  | .funcdef n => ⟨[n], true⟩
  | .classdef n => ⟨[n], true⟩
  | .importName n => ⟨[n], true⟩
  | .raiseStmt => ⟨[], false⟩
  | .passStmt => ⟨[], true⟩
  | .ifStmt c => analyzeChain c

/-- Modelled from the spec: the conditional-branch policy (spec 4.1).  A
statically true guard takes its branch and stops the chain; a statically
false guard contributes nothing and moves on; an indeterminate guard
merges its branch with the remaining alternatives via `combineBranches`.
A chain that falls off the end without an `else` may execute no branch at
all, so it binds nothing and completes. -/
def analyzeChain : Chain → BlockResult
  | .noElse => ⟨[], true⟩
  | .withElse e => analyzeBlock e
  | .cons cond body rest =>
    match truthiness cond with
    | .yes => analyzeBlock body
    | .no => analyzeChain rest
    | .unknown => combineBranches (analyzeBlock body) (analyzeChain rest)

/-- Modelled from the spec: reachability of a statement sequence
(spec 4.1).  Bindings accumulate while control flows; once a statement
cannot complete, nothing after it (nor its own partial bindings) counts. -/
def analyzeBlock : Block → BlockResult
  | .nil => ⟨[], true⟩
  | .cons s rest =>
    let r1 := analyzeStmt s
    if r1.completes then
      let r2 := analyzeBlock rest
      ⟨r1.bound.union r2.bound, r2.completes⟩
    else
      ⟨[], false⟩

end

/-- The analyzer's output for a module: the names bound on every execution
path reaching the end of the module's top level (the `attrnames` of
`TopLevelVisitor.parse(source)` in `static_mkinit.py:204`). -/
def alwaysBound (b : Block) : List String := (analyzeBlock b).bound

/-! ## Embedding of `static_mkinit.py` -/

/-- The observable outcomes of the external
`static.parse_static_value(key, source)`: the key is assigned a literal
list (`found`), the key is not assigned in the source (it raises
`NameError`), or the key is assigned a value that cannot be statically
evaluated to a literal (it raises `TypeError`). -/
inductive StaticParseOutcome where
  | found (vals : List String)
  | nameError
  | typeError
deriving DecidableEq

/-- A submodule's source, represented by what the trusted external parsers
extract from it: the outcome of `parse_static_value('__all__', source)`
(`static_mkinit.py:199`) and its top-level syntax tree. -/
structure SubModule where
  allOutcome : StaticParseOutcome
  body : Block

/-- The errors `static_mkinit.py` can raise. -/
inductive PyError where
  /-- `AssertionError('modname is None')`, `static_mkinit.py:172`. -/
  | assertionError
  /-- `Exception('cannot import ...')`, `static_mkinit.py:129`. -/
  | cannotImport
  /-- `Exception('Failed to lookup ...')` naming the submodule,
  `static_mkinit.py:185`. -/
  | lookupError (rel : String)
  /-- `IOError('Error reading {path}, caused by {cause}')`,
  `static_mkinit.py:194`. -/
  | ioError (path : String) (cause : String)
  /-- `TypeError` escaping from `static.parse_static_value` (only
  `NameError` is caught, `static_mkinit.py:200` and `:106-:109`). -/
  | typeError
deriving DecidableEq

/-- `dir(builtins)` (`static_mkinit.py:207`), the names never exported by
default.  Embedded, as the spec's design note 9 prescribes, as a fixed
denylist constant: the `dir` of the CPython 3 `builtins` module. -/
def dirBuiltins : List String :=
  ["ArithmeticError", "AssertionError", "AttributeError", "BaseException",
   "BlockingIOError", "BrokenPipeError", "BufferError", "BytesWarning",
   "ChildProcessError", "ConnectionAbortedError", "ConnectionError",
   "ConnectionRefusedError", "ConnectionResetError", "DeprecationWarning",
   "EOFError", "Ellipsis", "EnvironmentError", "Exception", "False",
   "FileExistsError", "FileNotFoundError", "FloatingPointError",
   "FutureWarning", "GeneratorExit", "IOError", "ImportError",
   "ImportWarning", "IndentationError", "IndexError", "InterruptedError",
   "IsADirectoryError", "KeyError", "KeyboardInterrupt", "LookupError",
   "MemoryError", "ModuleNotFoundError", "NameError", "None",
   "NotADirectoryError", "NotImplemented", "NotImplementedError",
   "OSError", "OverflowError", "PendingDeprecationWarning",
   "PermissionError", "ProcessLookupError", "RecursionError",
   "ReferenceError", "ResourceWarning", "RuntimeError", "RuntimeWarning",
   "StopAsyncIteration", "StopIteration", "SyntaxError", "SyntaxWarning",
   "SystemError", "SystemExit", "TabError", "TimeoutError", "True",
   "TypeError", "UnboundLocalError", "UnicodeDecodeError",
   "UnicodeEncodeError", "UnicodeError", "UnicodeTranslateError",
   "UnicodeWarning", "UserWarning", "ValueError", "Warning",
   "ZeroDivisionError", "__build_class__", "__debug__", "__doc__",
   "__import__", "__loader__", "__name__", "__package__", "__spec__",
   "abs", "all", "any", "ascii", "bin", "bool", "bytearray", "bytes",
   "callable", "chr", "classmethod", "compile", "complex", "copyright",
   "credits", "delattr", "dict", "dir", "divmod", "enumerate", "eval",
   "exec", "exit", "filter", "float", "format", "frozenset", "getattr",
   "globals", "hasattr", "hash", "help", "hex", "id", "input", "int",
   "isinstance", "issubclass", "iter", "len", "license", "list",
   "locals", "map", "max", "memoryview", "min", "next", "object", "oct",
   "open", "ord", "pow", "print", "property", "quit", "range", "repr",
   "reversed", "round", "set", "setattr", "slice", "sorted",
   "staticmethod", "str", "sum", "super", "tuple", "type", "vars", "zip"]

/-- The automatically derived attribute list (`static_mkinit.py:204-:214`,
the branch taken when `__all__` is unavailable): the analyzer's
always-bound names with underscore-prefixed names and names shadowing
built-ins dropped.  The `sorted` of line 215 is applied by the caller. -/
def derivedAttrs (b : Block) : List String :=
  (alwaysBound b).filter
    (fun attr => !startsWithUnderscore attr && !(decide (attr ∈ dirBuiltins)))

/-- `valid_attrs` as computed at `static_mkinit.py:196-:214` for one
submodule: with `use_all`, try the module's `__all__` (only a `NameError`
falls through to the automatic analysis; a `TypeError` escapes); without
`use_all`, or when `__all__` is absent, derive from the analyzer. -/
def getValidAttrs (use_all : Bool) (m : SubModule) : Except PyError (List String) :=
  if use_all then
    match m.allOutcome with
    | .found vals => .ok vals
    | .nameError => .ok (derivedAttrs m.body)
    | .typeError => .error .typeError
  else
    .ok (derivedAttrs m.body)

/-- One iteration of the loop at `static_mkinit.py:182-:215`: look up the
submodule's path (raising `Exception('Failed to lookup ...')` when the
lookup produced nothing, line 185), read its source (wrapping any failure
in `IOError` with the path, lines 186-195), compute `valid_attrs`, and
emit the `(rel_modname, sorted(valid_attrs))` pair of line 215. -/
def processOne (use_all : Bool) (read : String → Except String SubModule)
    (paths : String → Option String) (rel : String) :
    Except PyError (String × List String) :=
  match paths rel with
  | none => .error (.lookupError rel)
  | some p =>
    match read p with
    | .error cause => .error (.ioError p cause)
    | .ok m =>
      match getValidAttrs use_all m with
      | .error e => .error e
      | .ok attrs => .ok (rel, pySort attrs)

/-- The whole loop at `static_mkinit.py:182-:215`: process the submodules
in order, stopping at the first error (an uncaught exception aborts the
run, so no partial `from_imports` list is ever returned). -/
def processAll (use_all : Bool) (read : String → Except String SubModule)
    (paths : String → Option String) : List String → Except PyError (List (String × List String))
  | [] => .ok []
  | rel :: rest =>
    match processOne use_all read paths rel with
    | .error e => .error e
    | .ok pr =>
      match processAll use_all read paths rest with
      | .error e => .error e
      | .ok prs => .ok (pr :: prs)

/-- `_find_local_submodules` (`static_mkinit.py:114-:150`) given the
package name and the external enumeration of child module paths (each as
its dotted module name relative to the root package, paired with its
path): strip the leading `pkgname.` (Python slice `[len(pkgname)+1:]`),
and skip entries whose relative name is empty — in particular the
package's own `__init__` aggregator, whose dotted name is `pkgname`
itself — or starts with an underscore (`static_mkinit.py:145-:150`). -/
def _find_local_submodules (pkgname : String) (children : List (String × String)) :
    List (String × String) :=
  children.filterMap (fun c =>
    let rel := pyDrop (pkgname.length + 1) c.1
    if rel = "" then none
    else if startsWithUnderscore rel then none
    else some (rel, c.2))

/-- Python `dict` lookup over an association list built by insertion order
(later bindings of the same key win). -/
def pyDictLookup (pairs : List (String × String)) (k : String) : Option String :=
  (pairs.reverse.find? (fun p => p.1 = k)).map (fun p => p.2)

/-- The key set of a Python `dict` built from an association list. -/
def pyDictKeys (pairs : List (String × String)) : List String :=
  (pairs.map (fun p => p.1)).dedup

/-- The environment `_static_parse_imports` runs in: the outcome of
`static.modpath_to_modname(modpath, check=False)`, the external
enumeration of the package's children, the external
`static.modname_to_modpath` resolver for dotted names, and the
filesystem read (returning the parsed submodule or the exception text). -/
structure Env where
  pkgname : Option String
  children : List (String × String)
  resolve : String → Option String
  read : String → Except String SubModule

/-- Lines 169-179 of `static_mkinit.py`: decide the submodule list and the
path lookup.  With an explicit `imports` list, assert the package name
exists and resolve each `modname + '.' + m` on demand (line 173-176);
otherwise discover with `_find_local_submodules` (raising when the
package name cannot be determined, line 129) and take the sorted dict
keys (line 178-179). -/
def resolveImportPaths (env : Env) : Option (List String) →
    Except PyError (String × List String × (String → Option String))
  | some imps =>
    match env.pkgname with
    | none => .error .assertionError
    | some pn => .ok (pn, imps, fun m => env.resolve (pn ++ "." ++ m))
  | none =>
    match env.pkgname with
    | none => .error .cannotImport
    | some pn =>
      let pairs := _find_local_submodules pn env.children
      .ok (pn, pySort (pyDictKeys pairs), fun rel => pyDictLookup pairs rel)

/-- `_static_parse_imports` (`static_mkinit.py:153-:216`): resolve the
submodule set, process every submodule in order, and return
`(modname, imports, from_imports)`. -/
def _static_parse_imports (env : Env) (importsOpt : Option (List String)) (use_all : Bool) :
    Except PyError (String × List String × List (String × List String)) :=
  match resolveImportPaths env importsOpt with
  | .error e => .error e
  | .ok (pn, imps, paths) =>
    match processAll use_all env.read paths imps with
    | .error e => .error e
    | .ok fi => .ok (pn, imps, fi)

/-- The package's own `__init__.py`, represented by the outcomes of
`parse_static_value('__submodules__', source)` and
`parse_static_value('__SUBMODULES__', source)` on its text. -/
structure InitSource where
  lowerOutcome : StaticParseOutcome
  upperOutcome : StaticParseOutcome
deriving DecidableEq

/-- `parse_submodule_definition` (`static_mkinit.py:92-:111`): when the
`__init__.py` exists, try `__submodules__` first; only a `NameError`
falls through to `__SUBMODULES__`, and only a `NameError` there yields
`None` (any `TypeError` escapes). -/
def parse_submodule_definition (initFile : Option InitSource) :
    Except PyError (Option (List String)) :=
  match initFile with
  | none => .ok none
  | some f =>
    match f.lowerOutcome with
    | .found v => .ok (some v)
    | .typeError => .error .typeError
    | .nameError =>
      match f.upperOutcome with
      | .found v => .ok (some v)
      | .typeError => .error .typeError
      | .nameError => .ok none

/-- The core of `static_init` (`static_mkinit.py:75-:89`): when no
explicit `imports` argument is given, consult the declared submodule list
of the package's `__init__.py`, then run `_static_parse_imports`. -/
def static_init_core (env : Env) (initFile : Option InitSource)
    (importsArg : Option (List String)) (use_all : Bool) :
    Except PyError (String × List String × List (String × List String)) :=
  match importsArg with
  | some imps => _static_parse_imports env (some imps) use_all
  | none =>
    match parse_submodule_definition initFile with
    | .error e => .error e
    | .ok found => _static_parse_imports env found use_all

deriving instance DecidableEq for Except

/-! ## Helper lemmas -/

theorem mem_pySort {s : String} {l : List String} : s ∈ pySort l ↔ s ∈ l :=
  (List.perm_insertionSort _ l).mem_iff

theorem sorted_pySort (l : List String) : List.Sorted pyLe (pySort l) :=
  List.sorted_insertionSort _ l

theorem nodup_pySort {l : List String} (h : l.Nodup) : (pySort l).Nodup :=
  (List.perm_insertionSort _ l).nodup_iff.mpr h

theorem mem_derivedAttrs {s : String} {b : Block} :
    s ∈ derivedAttrs b ↔
      s ∈ alwaysBound b ∧ startsWithUnderscore s = false ∧ s ∉ dirBuiltins := by
  simp [derivedAttrs, List.mem_filter, Bool.and_eq_true, Bool.not_eq_true',
    decide_eq_false_iff_not]

theorem getValidAttrs_fallback {ua : Bool} {m : SubModule}
    (h : ua = false ∨ m.allOutcome = .nameError) :
    getValidAttrs ua m = .ok (derivedAttrs m.body) := by
  rcases h with h | h
  · subst h; rfl
  · cases ua
    · rfl
    · simp [getValidAttrs, h]

theorem processOne_ok_inv {ua : Bool} {rd : String → Except String SubModule}
    {pth : String → Option String} {rel : String} {pr : String × List String}
    (h : processOne ua rd pth rel = .ok pr) :
    ∃ p m attrs, pth rel = some p ∧ rd p = .ok m ∧
      getValidAttrs ua m = .ok attrs ∧ pr = (rel, pySort attrs) := by
  unfold processOne at h
  split at h
  · cases h
  · rename_i p hp
    split at h
    · cases h
    · rename_i m hr
      split at h
      · cases h
      · rename_i attrs hv
        cases h
        exact ⟨p, m, attrs, hp, hr, hv, rfl⟩

theorem processOne_fst {ua : Bool} {rd : String → Except String SubModule}
    {pth : String → Option String} {rel : String} {pr : String × List String}
    (h : processOne ua rd pth rel = .ok pr) : pr.1 = rel := by
  obtain ⟨p, m, attrs, -, -, -, hpr⟩ := processOne_ok_inv h
  rw [hpr]

theorem processAll_names {ua : Bool} {rd : String → Except String SubModule}
    {pth : String → Option String} :
    ∀ {imps : List String} {fi : List (String × List String)},
      processAll ua rd pth imps = .ok fi → fi.map (fun pr => pr.1) = imps := by
  intro imps
  induction imps with
  | nil => intro fi h; cases h; rfl
  | cons rel rest ih =>
    intro fi h
    unfold processAll at h
    split at h
    · cases h
    · rename_i pr hpr
      split at h
      · cases h
      · rename_i prs hprs
        cases h
        simp [processOne_fst hpr, ih hprs]

theorem processAll_prefix_error {ua : Bool} {rd : String → Except String SubModule}
    {pth : String → Option String} {e : PyError} :
    ∀ (pre : List String) (m : String) (post : List String),
      (∀ x ∈ pre, ∃ pr, processOne ua rd pth x = .ok pr) →
      processOne ua rd pth m = .error e →
      processAll ua rd pth (pre ++ m :: post) = .error e := by
  intro pre
  induction pre with
  | nil =>
    intro m post _ hm
    show processAll ua rd pth (m :: post) = .error e
    unfold processAll
    rw [hm]
  | cons x xs ih =>
    intro m post hpre hm
    obtain ⟨pr, hx⟩ := hpre x (by simp)
    show processAll ua rd pth (x :: (xs ++ m :: post)) = .error e
    unfold processAll
    rw [hx, ih m post (fun y hy => hpre y (by simp [hy])) hm]

theorem _static_parse_imports_ok_inv {env : Env} {io : Option (List String)} {ua : Bool}
    {pn : String} {imps : List String} {fi : List (String × List String)}
    (h : _static_parse_imports env io ua = .ok (pn, imps, fi)) :
    ∃ paths, resolveImportPaths env io = .ok (pn, imps, paths) ∧
      processAll ua env.read paths imps = .ok fi := by
  unfold _static_parse_imports at h
  split at h
  · cases h
  · rename_i pn' imps' paths h1
    split at h
    · cases h
    · rename_i fi' h2
      cases h
      exact ⟨paths, h1, h2⟩

theorem resolveImportPaths_some {env : Env} {pn : String}
    (hpn : env.pkgname = some pn) (l : List String) :
    resolveImportPaths env (some l) =
      .ok (pn, l, fun m => env.resolve (pn ++ "." ++ m)) := by
  unfold resolveImportPaths
  rw [hpn]

theorem resolveImportPaths_some_noname {env : Env}
    (hpn : env.pkgname = none) (l : List String) :
    resolveImportPaths env (some l) = .error .assertionError := by
  unfold resolveImportPaths
  rw [hpn]

theorem resolveImportPaths_some_inv {env : Env} {l : List String}
    {pn : String} {imps : List String} {paths : String → Option String}
    (h : resolveImportPaths env (some l) = .ok (pn, imps, paths)) :
    env.pkgname = some pn ∧ imps = l := by
  cases hpn : env.pkgname with
  | none => rw [resolveImportPaths_some_noname hpn] at h; cases h
  | some pn' =>
    rw [resolveImportPaths_some hpn] at h
    simp only [Except.ok.injEq, Prod.mk.injEq] at h
    obtain ⟨rfl, rfl, -⟩ := h
    exact ⟨rfl, rfl⟩

theorem resolveImportPaths_none {env : Env} {pn : String}
    (hpn : env.pkgname = some pn) :
    resolveImportPaths env none =
      .ok (pn, pySort (pyDictKeys (_find_local_submodules pn env.children)),
           fun rel => pyDictLookup (_find_local_submodules pn env.children) rel) := by
  unfold resolveImportPaths
  rw [hpn]

theorem _static_parse_imports_some_imps {env : Env} {l : List String} {ua : Bool}
    {pn : String} {imps : List String} {fi : List (String × List String)}
    (h : _static_parse_imports env (some l) ua = .ok (pn, imps, fi)) : imps = l := by
  obtain ⟨paths, h1, -⟩ := _static_parse_imports_ok_inv h
  exact (resolveImportPaths_some_inv h1).2

theorem _static_parse_imports_none_imps {env : Env} {ua : Bool}
    {pn pnr : String} {imps : List String} {fi : List (String × List String)}
    (hpn : env.pkgname = some pn)
    (h : _static_parse_imports env none ua = .ok (pnr, imps, fi)) :
    pnr = pn ∧ imps = pySort (pyDictKeys (_find_local_submodules pn env.children)) := by
  obtain ⟨paths, h1, -⟩ := _static_parse_imports_ok_inv h
  rw [resolveImportPaths_none hpn] at h1
  cases h1
  exact ⟨rfl, rfl⟩

theorem mem_discovery_keys {pn s : String} {children : List (String × String)} :
    s ∈ pySort (pyDictKeys (_find_local_submodules pn children)) ↔
      ∃ c ∈ children,
        pyDrop (pn.length + 1) c.1 = s ∧ s ≠ "" ∧ startsWithUnderscore s = false := by
  rw [mem_pySort, pyDictKeys, List.mem_dedup, List.mem_map]
  constructor
  · rintro ⟨⟨rel, path⟩, hmem, rfl⟩
    rw [_find_local_submodules, List.mem_filterMap] at hmem
    obtain ⟨c, hc, hfc⟩ := hmem
    dsimp only at hfc
    split at hfc
    · cases hfc
    · split at hfc
      · cases hfc
      · rename_i hne hsw
        cases hfc
        exact ⟨c, hc, rfl, hne, Bool.not_eq_true _ ▸ eq_false_of_ne_true hsw⟩
  · rintro ⟨c, hc, hdrop, hne, hu⟩
    refine ⟨(s, c.2), ?_, rfl⟩
    rw [_find_local_submodules, List.mem_filterMap]
    refine ⟨c, hc, ?_⟩
    dsimp only
    rw [hdrop]
    simp [hne, hu]

/-! ## Claim C1 -/

/-- The dummy submodule body of the claim's concrete scenario:
`if True: a = 1` followed by `if False: b = 1`, no `else` on either. -/
def c1ScenarioBody : Block :=
  blockOf
    [.ifStmt (.cons (.litBool true) (blockOf [.assign "a"]) .noElse),
     .ifStmt (.cons (.litBool false) (blockOf [.assign "b"]) .noElse)]

/-- A module whose top level is the single chain
`if True: a = 1` / `elif True: b = 1` (no `else`). -/
def c1CexBody : Block :=
  blockOf
    [.ifStmt (.cons (.litBool true) (blockOf [.assign "a"])
      (.cons (.litBool true) (blockOf [.assign "b"]) .noElse))]

/-- C1, counterexample.  The claim as stated — every name bound in a
branch guarded by the literal `True` is in the always-bound set — fails:
in `if True: a = 1` / `elif True: b = 1` the `elif True` branch is
guarded by the literal `True` and binds `b`, yet the always-bound set is
exactly `["a"]`, because processing of sibling branches stops at the
first always-true guard (and indeed `b` is never bound at runtime).  The
repository's own test expects the same (`bad_attr_true8` in
`src/tests/test_with_dummy.py`). -/
theorem c1_counterexample :
    analyzeBlock (blockOf [.assign "b"]) = ⟨["b"], true⟩ ∧
    alwaysBound c1CexBody = ["a"] ∧ "b" ∉ alwaysBound c1CexBody := by
  refine ⟨by decide, by decide, by decide⟩

/-- C1, amended.  A branch guarded by the literal `True` that the chain
actually reaches (i.e. the chain's first branch) contributes its bindings
as always-bound and stops the chain; a branch guarded by the literal
`False` contributes nothing and falls through to its siblings, with or
without an `else`; consequently a submodule containing `if True: a = 1`
and `if False: b = 1` (and no `__all__`) yields the export list `["a"]`. -/
theorem c1_literal_guard_policy :
    (∀ (body : Block) (rest : Chain),
      analyzeChain (.cons (.litBool true) body rest) = analyzeBlock body) ∧
    (∀ (body : Block) (rest : Chain),
      analyzeChain (.cons (.litBool false) body rest) = analyzeChain rest) ∧
    processOne true (fun _ => .ok ⟨.nameError, c1ScenarioBody⟩)
      (fun _ => some "p") "submod" = .ok ("submod", ["a"]) := by
  refine ⟨fun body rest => rfl, fun body rest => rfl, by decide⟩

/-! ## Claim C2 -/

/-- C2: when `use_all` holds and the submodule's `__all__` statically
evaluates to a literal list, the emitted export list is exactly that list
sorted, with no underscore or builtin filtering and independent of the
module body (the reachability analysis is never consulted): the body `b`
is universally quantified and absent from the result. -/
theorem c2_explicit_all_authoritative (vals : List String) (b : Block)
    (rd : String → Except String SubModule) (pth : String → Option String)
    (rel p : String)
    (hpth : pth rel = some p) (hrd : rd p = .ok ⟨.found vals, b⟩) :
    processOne true rd pth rel = .ok (rel, pySort vals) := by
  simp [processOne, hpth, hrd, getValidAttrs]

/-- C2, witness: a declared list naming an underscore-prefixed name, a
builtin name, and a name never assigned anywhere is passed through
verbatim (sorted). -/
theorem c2_witness :
    processOne true (fun _ => .ok ⟨.found ["z", "_y", "list"], blockOf []⟩)
      (fun _ => some "p") "mod" = .ok ("mod", pySort ["z", "_y", "list"]) :=
  c2_explicit_all_authoritative ["z", "_y", "list"] (blockOf []) _ _ "mod" "p" rfl rfl

/-! ## Claim C6 -/

/-- Environment for the C6 counterexample: one submodule whose `__all__`
exists but is not statically evaluable to a literal list. -/
def c6Env : Env :=
  ⟨some "pkg", [], fun _ => some "pathm",
   fun _ => .ok ⟨.typeError, blockOf [.assign "a"]⟩⟩

/-- C6, counterexample.  A public-symbol declaration that exists but
cannot be statically evaluated to a literal list is NOT treated as
absent: `static_mkinit.py` catches only `NameError` (lines 200 and
106-109), so the `TypeError` raised by the external
`static.parse_static_value` for a non-literal value escapes and the run
fails instead of falling back to the automatic analysis; the same holds
for a non-literal `__submodules__` declaration. -/
theorem c6_counterexample :
    getValidAttrs true ⟨.typeError, blockOf [.assign "a"]⟩ = .error .typeError ∧
    _static_parse_imports c6Env (some ["m"]) true = .error .typeError ∧
    parse_submodule_definition (some ⟨.typeError, .nameError⟩) = .error .typeError := by
  refine ⟨rfl, by decide, rfl⟩

/-- C6, amended.  Only a declaration whose name is absent altogether
(`NameError` from the static parser) is treated as absent, in which case
the system does fall back to the automatic analysis (for `__all__`) or to
discovery (for `__submodules__`, yielding `None`) without failing; a
declaration that exists but is not statically evaluable raises an
uncaught `TypeError` that aborts the run. -/
theorem c6_nameerror_fallback :
    (∀ b : Block, getValidAttrs true ⟨.nameError, b⟩ = .ok (derivedAttrs b)) ∧
    parse_submodule_definition (some ⟨.nameError, .nameError⟩) = .ok none ∧
    (∀ b : Block, getValidAttrs true ⟨.typeError, b⟩ = .error .typeError) := by
  refine ⟨fun b => rfl, rfl, fun b => rfl⟩

/-! ## Claim C10 -/

/-- C10: `parse_submodule_definition` consults the lowercase spelling
`__submodules__` first; when it yields a literal list the uppercase
`__SUBMODULES__` is never consulted (the result is independent of its
outcome `u`), so with both declared as literal lists the lowercase one
wins; the uppercase spelling is used exactly when the lowercase lookup
raises `NameError`. -/
theorem c10_lowercase_wins :
    (∀ (lv : List String) (u : StaticParseOutcome),
      parse_submodule_definition (some ⟨.found lv, u⟩) = .ok (some lv)) ∧
    (∀ uv : List String,
      parse_submodule_definition (some ⟨.nameError, .found uv⟩) = .ok (some uv)) := by
  refine ⟨fun lv u => rfl, fun uv => rfl⟩

/-! ## Claim C3 -/

/-- C3: for a submodule processed without a usable explicit `__all__`
(either `use_all` is off, or the module does not assign `__all__` at
all, so the static parse raises `NameError`), the emitted export list is
the reachability analyzer's always-bound set with underscore-prefixed
names and names shadowing builtins removed, sorted. -/
theorem c3_derived_export_list (ua : Bool) (m : SubModule)
    (rd : String → Except String SubModule) (pth : String → Option String)
    (rel p : String)
    (hua : ua = false ∨ m.allOutcome = .nameError)
    (hpth : pth rel = some p) (hrd : rd p = .ok m) :
    processOne ua rd pth rel = .ok (rel, pySort (derivedAttrs m.body)) ∧
    List.Sorted pyLe (pySort (derivedAttrs m.body)) ∧
    ∀ s, s ∈ pySort (derivedAttrs m.body) ↔
      s ∈ alwaysBound m.body ∧ startsWithUnderscore s = false ∧ s ∉ dirBuiltins := by
  refine ⟨?_, sorted_pySort _, fun s => mem_pySort.trans mem_derivedAttrs⟩
  simp [processOne, hpth, hrd, getValidAttrs_fallback hua]

/-- Module for the C3 witness: no `__all__`; top level binds `b`, `_c`,
`list` and `a`. -/
def c3Module : SubModule :=
  ⟨.nameError, blockOf [.assign "b", .assign "_c", .assign "list", .assign "a"]⟩

/-- C3, witness: instantiating the theorem on a concrete module with no
`__all__`. -/
theorem c3_witness :
    processOne true (fun _ => .ok c3Module) (fun _ => some "p") "mod" =
      .ok ("mod", pySort (derivedAttrs c3Module.body)) ∧
    List.Sorted pyLe (pySort (derivedAttrs c3Module.body)) ∧
    ∀ s, s ∈ pySort (derivedAttrs c3Module.body) ↔
      s ∈ alwaysBound c3Module.body ∧ startsWithUnderscore s = false ∧
        s ∉ dirBuiltins :=
  c3_derived_export_list true c3Module _ _ "mod" "p" (Or.inr rfl) rfl rfl

/-! ## Claim C4 -/

/-- C4, counterexample.  The invariant fails on the explicit-declaration
path: a module declaring `__all__ = ["_hidden", "list"]` yields exactly
that export list (sorted), which contains a name starting with the
privacy marker and a name equal to a builtin identifier — the filtering
of lines 209-214 is applied only on the derived path. -/
theorem c4_counterexample :
    processOne true (fun _ => .ok ⟨.found ["_hidden", "list"], blockOf []⟩)
      (fun _ => some "p") "mod" = .ok ("mod", ["_hidden", "list"]) ∧
    startsWithUnderscore "_hidden" = true ∧ "list" ∈ dirBuiltins := by
  refine ⟨by decide, rfl, by decide⟩

/-- C4, amended.  Every automatically derived export list (produced when
no usable `__all__` declaration applies) contains no underscore-prefixed
name and no builtin name; an explicit `__all__` declaration, by
contrast, is passed through verbatim (see the counterexample). -/
theorem c4_derived_invariant (ua : Bool) (m : SubModule)
    (rd : String → Except String SubModule) (pth : String → Option String)
    (rel p : String) (pr : String × List String) (s : String)
    (hua : ua = false ∨ m.allOutcome = .nameError)
    (hpth : pth rel = some p) (hrd : rd p = .ok m)
    (hrun : processOne ua rd pth rel = .ok pr) (hs : s ∈ pr.2) :
    startsWithUnderscore s = false ∧ s ∉ dirBuiltins := by
  have hcomp : processOne ua rd pth rel = .ok (rel, pySort (derivedAttrs m.body)) := by
    simp [processOne, hpth, hrd, getValidAttrs_fallback hua]
  rw [hcomp] at hrun
  cases hrun
  have hmem := mem_derivedAttrs.mp (mem_pySort.mp hs)
  exact ⟨hmem.2.1, hmem.2.2⟩

/-- C4, witness: instantiating the amended invariant on a concrete
module deriving its export list automatically. -/
theorem c4_witness :
    startsWithUnderscore "a" = false ∧ "a" ∉ dirBuiltins :=
  c4_derived_invariant true ⟨.nameError, blockOf [.assign "a", .assign "_c"]⟩
    (fun _ => .ok ⟨.nameError, blockOf [.assign "a", .assign "_c"]⟩)
    (fun _ => some "p") "mod" "p" ("mod", ["a"]) "a"
    (Or.inr rfl) rfl rfl (by decide) (by decide)

/-! ## Claim C5 -/

/-- Environment for the C5 counterexample: explicit submodule lists given
out of order; every path resolves and every module is empty with no
`__all__`. -/
def c5Env : Env :=
  ⟨some "pkg", [], fun _ => some "pathx", fun _ => .ok ⟨.nameError, blockOf []⟩⟩

/-- C5, counterexample.  With an explicit imports list `["b", "a"]` — or
the same list declared as `__submodules__` in the aggregator file — the
manifest pairs come out in the given order `[("b", _), ("a", _)]`, which
is not sorted by relative name: the `sorted` of `static_mkinit.py:179` is
applied only on the discovery path. -/
theorem c5_counterexample :
    _static_parse_imports c5Env (some ["b", "a"]) false =
      .ok ("pkg", ["b", "a"], [("b", []), ("a", [])]) ∧
    static_init_core c5Env (some ⟨.found ["b", "a"], .nameError⟩) none false =
      .ok ("pkg", ["b", "a"], [("b", []), ("a", [])]) ∧
    ¬ List.Sorted pyLe ["b", "a"] := by
  refine ⟨by decide, by decide, by decide⟩

/-- C5, amended.  The manifest pairs are sorted by relative name when the
submodule set comes from discovery; when an explicit imports list (or a
declared submodule list passed through as one) is in effect, the pairs
follow the given list's order instead. -/
theorem c5_manifest_order :
    (∀ (env : Env) (ua : Bool) (pn pnr : String) (imps : List String)
        (fi : List (String × List String)),
      env.pkgname = some pn →
      _static_parse_imports env none ua = .ok (pnr, imps, fi) →
      List.Sorted pyLe (fi.map (fun pr => pr.1))) ∧
    (∀ (env : Env) (ua : Bool) (l : List String) (pnr : String)
        (imps : List String) (fi : List (String × List String)),
      _static_parse_imports env (some l) ua = .ok (pnr, imps, fi) →
      fi.map (fun pr => pr.1) = l) := by
  constructor
  · intro env ua pn pnr imps fi hpn hrun
    obtain ⟨paths, h1, h2⟩ := _static_parse_imports_ok_inv hrun
    rw [processAll_names h2]
    obtain ⟨-, himps⟩ := _static_parse_imports_none_imps hpn hrun
    rw [himps]
    exact sorted_pySort _
  · intro env ua l pnr imps fi hrun
    obtain ⟨paths, h1, h2⟩ := _static_parse_imports_ok_inv hrun
    rw [processAll_names h2]
    exact _static_parse_imports_some_imps hrun

/-- Discovery environment for the C5 witness: children enumerated out of
order. -/
def c5DiscEnv : Env :=
  ⟨some "pkg", [("pkg.beta", "pb"), ("pkg.alpha", "pa")], fun _ => none,
   fun _ => .ok ⟨.nameError, blockOf []⟩⟩

/-- C5, witness: on a concrete discovery run the manifest names come out
sorted, and on a concrete explicit run they follow the given order. -/
theorem c5_witness :
    List.Sorted pyLe
      (([("alpha", ([] : List String)), ("beta", [])]).map (fun pr => pr.1)) ∧
    (([("b", ([] : List String)), ("a", [])]).map (fun pr => pr.1)) = ["b", "a"] :=
  ⟨c5_manifest_order.1 c5DiscEnv true "pkg" "pkg" ["alpha", "beta"]
      [("alpha", []), ("beta", [])] rfl (by decide),
   c5_manifest_order.2 c5Env false ["b", "a"] "pkg" ["b", "a"]
      [("b", []), ("a", [])] (by decide)⟩

/-! ## Claim C7 -/

/-- C7: with no explicit submodule list, the processed submodule set is
exactly the sorted, duplicate-free list of the package's child relative
names, keeping precisely those children whose relative name (the dotted
name with the leading `pkgname.` stripped) is nonempty — which excludes
the aggregator `__init__` itself, whose relative name is empty — and does
not start with the privacy marker; the manifest pairs follow that set. -/
theorem c7_discovery_submodule_set (env : Env) (ua : Bool) (pn pnr : String)
    (imps : List String) (fi : List (String × List String))
    (hpn : env.pkgname = some pn)
    (hrun : _static_parse_imports env none ua = .ok (pnr, imps, fi)) :
    List.Sorted pyLe imps ∧ imps.Nodup ∧
    (∀ s, s ∈ imps ↔ ∃ c ∈ env.children,
        pyDrop (pn.length + 1) c.1 = s ∧ s ≠ "" ∧ startsWithUnderscore s = false) ∧
    fi.map (fun pr => pr.1) = imps := by
  obtain ⟨-, himps⟩ := _static_parse_imports_none_imps hpn hrun
  obtain ⟨paths, h1, h2⟩ := _static_parse_imports_ok_inv hrun
  subst himps
  exact ⟨sorted_pySort _, nodup_pySort (List.nodup_dedup _),
    fun s => mem_discovery_keys, processAll_names h2⟩

/-- Environment for the C7 witness: a package `pkg` whose children are
its own `__init__`, `sub1`, `sub2` and a private `_sub3`. -/
def c7Env : Env :=
  ⟨some "pkg",
   [("pkg", "ip"), ("pkg.sub1", "p1"), ("pkg.sub2", "p2"), ("pkg._sub3", "p3")],
   fun _ => none, fun _ => .ok ⟨.nameError, blockOf []⟩⟩

/-- C7, witness: the concrete scenario — submodules `sub1`, `sub2` and a
private `_sub3` yield a manifest covering exactly `sub1` and `sub2`,
sorted. -/
theorem c7_witness :
    List.Sorted pyLe ["sub1", "sub2"] ∧ (["sub1", "sub2"] : List String).Nodup ∧
    (∀ s, s ∈ (["sub1", "sub2"] : List String) ↔ ∃ c ∈ c7Env.children,
        pyDrop ("pkg".length + 1) c.1 = s ∧ s ≠ "" ∧
          startsWithUnderscore s = false) ∧
    (([("sub1", ([] : List String)), ("sub2", [])]).map (fun pr => pr.1)) =
      ["sub1", "sub2"] :=
  c7_discovery_submodule_set c7Env true "pkg" "pkg" ["sub1", "sub2"]
    [("sub1", []), ("sub2", [])] rfl (by decide)

/-! ## Claim C8 -/

/-- C8: when the submodule list is in effect and some entry's path lookup
produced nothing, the run fails with the lookup error naming the first
such entry, and — the result being an error, not a value — no partial
manifest is produced. -/
theorem c8_unresolvable_entry_fails (env : Env) (io : Option (List String)) (ua : Bool)
    (pn m : String) (pre post : List String) (paths : String → Option String)
    (hres : resolveImportPaths env io = .ok (pn, pre ++ m :: post, paths))
    (hm : paths m = none)
    (hpre : ∀ x ∈ pre, ∃ pr, processOne ua env.read paths x = .ok pr) :
    _static_parse_imports env io ua = .error (.lookupError m) := by
  have hone : processOne ua env.read paths m = .error (.lookupError m) := by
    unfold processOne
    rw [hm]
  have hall := processAll_prefix_error pre m post hpre hone
  simp [_static_parse_imports, hres, hall]

/-- Environment for the C8 witness: `pkg.good` resolves, `pkg.missing`
does not. -/
def c8Env : Env :=
  ⟨some "pkg", [],
   fun s => if s = "pkg.good" then some "pg" else none,
   fun _ => .ok ⟨.nameError, blockOf []⟩⟩

/-- C8, witness: an explicit list whose second entry cannot be located
fails with the error naming that entry. -/
theorem c8_witness :
    _static_parse_imports c8Env (some ["good", "missing"]) true =
      .error (.lookupError "missing") :=
  c8_unresolvable_entry_fails c8Env (some ["good", "missing"]) true "pkg" "missing"
    ["good"] [] (fun m => c8Env.resolve ("pkg" ++ "." ++ m)) rfl (by decide)
    (by
      intro x hx
      have hxg : x = "good" := by simpa using hx
      subst hxg
      exact ⟨("good", []), by decide⟩)

/-! ## Claim C9 -/

/-- C9: when a submodule's source cannot be read, the run fails with an
`IOError` that carries the offending path and the underlying cause, and
no partial manifest is produced. -/
theorem c9_read_failure_fails (env : Env) (io : Option (List String)) (ua : Bool)
    (pn m p cause : String) (pre post : List String) (paths : String → Option String)
    (hres : resolveImportPaths env io = .ok (pn, pre ++ m :: post, paths))
    (hm : paths m = some p) (hread : env.read p = .error cause)
    (hpre : ∀ x ∈ pre, ∃ pr, processOne ua env.read paths x = .ok pr) :
    _static_parse_imports env io ua = .error (.ioError p cause) := by
  have hone : processOne ua env.read paths m = .error (.ioError p cause) := by
    simp [processOne, hm, hread]
  have hall := processAll_prefix_error pre m post hpre hone
  simp [_static_parse_imports, hres, hall]

/-- Environment for the C9 witness: `pkg.bad` resolves to a path whose
read fails. -/
def c9Env : Env :=
  ⟨some "pkg", [],
   fun s => if s = "pkg.bad" then some "pathbad" else none,
   fun p => if p = "pathbad" then .error "PermissionError"
            else .ok ⟨.nameError, blockOf []⟩⟩

/-- C9, witness: a concrete run whose single submodule cannot be read
fails with the wrapped read error. -/
theorem c9_witness :
    _static_parse_imports c9Env (some ["bad"]) true =
      .error (.ioError "pathbad" "PermissionError") :=
  c9_read_failure_fails c9Env (some ["bad"]) true "pkg" "bad" "pathbad"
    "PermissionError" [] [] (fun m => c9Env.resolve ("pkg" ++ "." ++ m)) rfl
    (by decide) rfl (fun x hx => absurd hx (List.not_mem_nil x))
